import Mathlib

/-!
Shallow embedding of the juju/guiproxy proxy routing and relay engine:
the WebSocket address resolver, the bidirectional frame relay (wsproxy),
the WebSocket session handler, the HTTPS pass-through route and the
logger and configuration helpers, together with theorems about them.
-/

/-- Go error values are modelled by their message strings; io.EOF is "EOF". -/
abbrev GoError := String

/-- Model of io.EOF, the error returned on a normal end of stream. -/
def ioEOF : GoError := "EOF"

namespace GoStrings

/-- Model of Go strings.Contains on character lists: does the second list
occur as a contiguous sublist of the first? -/
def hasSub : List Char → List Char → Bool
  | [], pat => pat.isEmpty
  | c :: rest, pat => pat.isPrefixOf (c :: rest) || hasSub rest pat

/-- Model of Go strings.Contains(s, sub). -/
def strContains (s sub : String) : Bool :=
  hasSub s.data sub.data

/-- First replacement pair whose (non-empty) pattern matches at the head of s.
Go's strings.Replacer picks, at each position, the matching pattern that was
given earliest in the argument list; replacement text is not rescanned. All
patterns built by this repository ("$controller", "$model", ...) are non-empty. -/
def findRep (pairs : List (List Char × List Char)) (s : List Char) :
    Option (List Char × List Char) :=
  pairs.find? (fun p => !p.1.isEmpty && p.1.isPrefixOf s)

/-- Model of Go strings.Replacer.Replace: a single left-to-right pass over the
input; on a match the pattern is consumed and its replacement emitted (and not
rescanned), otherwise one character is emitted. The first argument is fuel
bounding the number of passes; every pass consumes at least one input
character, so fuel equal to the input length always suffices. -/
def runReplaceAux (pairs : List (List Char × List Char)) :
    Nat → List Char → List Char
  | _, [] => []
  | 0, s => s
  | fuel + 1, c :: rest =>
    match findRep pairs (c :: rest) with
    | some p => p.2 ++ runReplaceAux pairs fuel (rest.drop (p.1.length - 1))
    | none => c :: runReplaceAux pairs fuel rest

/-- Model of Go strings.Replacer.Replace with adequate fuel. -/
def runReplace (pairs : List (List Char × List Char)) (s : List Char) : List Char :=
  runReplaceAux pairs s.length s

/-- Model of strings.NewReplacer(oldnew...).Replace(s) on Lean strings. -/
def replaceStr (pairs : List (String × String)) (s : String) : String :=
  ⟨runReplace (pairs.map (fun p => (p.1.data, p.2.data))) s.data⟩

end GoStrings

namespace Server

/-- URL query model: the ordered key/value pairs of the request URL's query
string (url.Values keeps one slice per key; Get returns the first value). -/
abbrev Query := List (String × String)

/-- Model of Go url.Values.Get: the first value stored for the key, or the
empty string when the key is absent. -/
def queryGet (q : Query) (k : String) : String :=
  match q.find? (fun p => p.1 == k) with
  | some p => p.2
  | none => ""

/-- Source template constant from the server package. -/
def controllerSrcTemplate : String := "/controller/?controller=$server:$port"

/-- Destination template constant from the server package. -/
def controllerDstTemplate : String := "wss://$controller/api"

/-- Source template constant from the server package. -/
def modelSrcTemplate : String := "/model/?model=$server:$port&uuid=$uuid"

/-- Destination template constant from the server package. -/
def modelDstTemplate : String := "wss://$model/model/$uuid/api"

/-- Legacy (Juju 1) source template constant from the server package. -/
def legacyModelSrcTemplate : String := "/model/?model=$server:$port"

/-- Legacy (Juju 1) destination template constant from the server package. -/
def legacyModelDstTemplate : String := "wss://$model/"

/-- Outcome of resolveWebSocketAddress. The source function has no error
return: when a query field referenced by the destination template is missing
or empty it calls log.Fatalf, which terminates the whole process. That branch
is modelled by `fatal`, carrying the offending field name. -/
inductive ResolveResult where
  | ok (target : String)
  | fatal (field : String)
deriving DecidableEq

/-- The fixed field list iterated by resolveWebSocketAddress. -/
def resolveFields : List String := ["controller", "model", "uuid"]

/-- Loop body of resolveWebSocketAddress: for each field referenced by the
destination template, look up its query value; an empty value is fatal,
otherwise the pair ("$field", value) is appended to the replacement list. -/
def resolveLoop (query : Query) (dstTemplate : String) :
    List String → List (String × String) → ResolveResult
  | [], oldnew => .ok (GoStrings.replaceStr oldnew dstTemplate)
  | field :: rest, oldnew =>
    if GoStrings.strContains dstTemplate ("$" ++ field) then
      if queryGet query field = "" then .fatal field
      else resolveLoop query dstTemplate rest (oldnew ++ [("$" ++ field, queryGet query field)])
    else resolveLoop query dstTemplate rest oldnew

/-- Model of resolveWebSocketAddress (server package, query-based version):
substitute the referenced query fields into the destination template. -/
def resolveWebSocketAddress (query : Query) (dstTemplate : String) : ResolveResult :=
  resolveLoop query dstTemplate resolveFields []

end Server

namespace Wsproxy

/-- Behaviour of one iteration of the cp loop against its two connections:
either the read from src fails, or the read succeeds (yielding the raw JSON
encoding of the message) and the write to dst fails, or both succeed. -/
inductive Step where
  | readFail (e : GoError)
  | writeFail (msg : String) (e : GoError)
  | okStep (msg : String)
deriving DecidableEq

/-- Observable events of one direction's copy loop. -/
inductive Event where
  | read (msg : String)
  | rfail (e : GoError)
  | write (msg : String)
  | wfail (msg : String) (e : GoError)
  | log (msg : String)
  | send (e : GoError)
deriving DecidableEq

/-- Events generated by the cp goroutine of wsproxy.Copy when its connections
behave according to the given trace. The loop repeats copyJSON — read one JSON
message from src, write it to dst — and then logs the raw message; on the
first read or write error it sends that error on the error channel and
returns. An exhausted trace models a loop still blocked in its next read. -/
def cpEvents : List Step → List Event
  | [] => []
  | .okStep m :: rest => .read m :: .write m :: .log m :: cpEvents rest
  | .readFail e :: _ => [.rfail e, .send e]
  | .writeFail m e :: _ => [.read m, .wfail m e, .send e]

/-- Messages successfully written to the destination connection. -/
def writesOf : List Event → List String
  | [] => []
  | .write m :: rest => m :: writesOf rest
  | _ :: rest => writesOf rest

/-- Messages passed to the observer (apiLog.Print). -/
def logsOf : List Event → List String
  | [] => []
  | .log m :: rest => m :: logsOf rest
  | _ :: rest => logsOf rest

/-- Values sent on the error channel. -/
def sendsOf : List Event → List GoError
  | [] => []
  | .send e :: rest => e :: sendsOf rest
  | _ :: rest => sendsOf rest

/-- The messages of the steps copied successfully before the first failure. -/
def okPrefix : List Step → List String
  | .okStep m :: rest => m :: okPrefix rest
  | _ => []

/-- Terminal events of the loop: those of the first failing step, if any. -/
def failEvents : List Step → List Event
  | [] => []
  | .okStep _ :: rest => failEvents rest
  | .readFail e :: _ => [.rfail e, .send e]
  | .writeFail m e :: _ => [.read m, .wfail m e, .send e]

/-- Events of a run in which every listed message is copied successfully:
for each message, a read, then the write, then the observer call. -/
def copiedEvents : List String → List Event
  | [] => []
  | m :: rest => .read m :: .write m :: .log m :: copiedEvents rest

/-- The loop's terminal error: the error of the first failing step, if any.
End-of-stream (io.EOF) is an error value like any other here. -/
def firstErr : List Step → Option GoError
  | [] => none
  | .okStep _ :: rest => firstErr rest
  | .readFail e :: _ => some e
  | .writeFail _ e :: _ => some e

/-- Whether some step of the trace fails. -/
def hasFail (t : List Step) : Bool :=
  (firstErr t).isSome

/-- Capacity of the error channel created by wsproxy.Copy: make(chan error, 2). -/
def errChCap : Nat := 2

/-- Execute a list of sends on a buffered channel with the given capacity and
no intervening receives, starting from the given queue. Returns the final
queue, or none if some send would block (queue already full when it happens).
No receives is the worst case for blocking: a concurrent receive only frees
buffer space. -/
def execSends (cap : Nat) : List GoError → List GoError → Option (List GoError)
  | [], q => some q
  | e :: rest, q => if q.length < cap then execSends cap rest (q ++ [e]) else none

/-- Interleave the pending channel sends of the two cp goroutines according to
a schedule: each Bool picks whether goroutine one's next pending send happens
before goroutine two's. The Nat argument is fuel, always at least the total
number of sends in every use. -/
def mergeSendsAux : Nat → List Bool → List GoError → List GoError → List GoError
  | 0, _, xs, ys => xs ++ ys
  | _, _, [], ys => ys
  | _, _, xs, [] => xs
  | fuel + 1, [], x :: xs, y :: ys => x :: mergeSendsAux fuel [] xs (y :: ys)
  | fuel + 1, true :: s, x :: xs, y :: ys => x :: mergeSendsAux fuel s xs (y :: ys)
  | fuel + 1, false :: s, x :: xs, y :: ys => y :: mergeSendsAux fuel s (x :: xs) ys

/-- Scheduled interleaving of the two goroutines' channel sends. -/
def mergeSends (sched : List Bool) (xs ys : List GoError) : List GoError :=
  mergeSendsAux (xs.length + ys.length) sched xs ys

/-- Model of wsproxy.Copy: the two cp goroutines (direction one and direction
two) each produce their channel sends; the schedule fixes the real-time order
in which those sends reach the shared channel; Copy returns the first value
received from the channel. none models a Copy blocked forever because neither
loop ever fails. -/
def copyResult (t1 t2 : List Step) (sched : List Bool) : Option GoError :=
  match execSends errChCap (mergeSends sched (sendsOf (cpEvents t1)) (sendsOf (cpEvents t2))) [] with
  | some q => q.head?
  | none => none

/-- Checks that every observer call in an event list is immediately preceded
by the successful write of the same message; the first argument is the
previous event, if any. -/
def logAfterWriteAux : Option Event → List Event → Bool
  | _, [] => true
  | prev, .log m :: rest =>
    if prev = some (.write m) then logAfterWriteAux (some (.log m)) rest else false
  | _, e :: rest => logAfterWriteAux (some e) rest

/-- Checks that every observer call in an event list is immediately preceded
by the successful write of the same message. -/
def logAfterWrite (evts : List Event) : Bool :=
  logAfterWriteAux none evts

end Wsproxy

namespace Logger

/-- Model of the logger package's message modifiers. The server passes the
colorizing functions produced by logColors directly to logger.New; when colors
are disabled those are nil, modelled by none. -/
abbrev Modifier := Option (String → String)

/-- Model of apiLogger.Print up to the final logPrintln: fold the modifiers
over the message. Go calls each stored modifier unconditionally; calling a nil
function value panics, modelled by none. -/
def applyModifiers : List Modifier → String → Option String
  | [], msg => some msg
  | some f :: rest, msg => applyModifiers rest (f msg)
  | none :: _, _ => none

/-- Model of logger.AddPrefix: prepends the given text and ": ". -/
def addPrefixFn (pre : String) : String → String :=
  fun msg => pre ++ ": " ++ msg

/-- Model of the server package's logColors: the colorizing modifiers for the
incoming and outgoing direction, nil (none) when colors are disabled. The
color functions wrap the message in terminal escape sequences. -/
def mkColor (color : Nat) : String → String :=
  fun msg => "\x1b[38;5;" ++ toString color ++ "m" ++ msg ++ "\x1b[00m"

/-- Model of logColors(isModel, noColor) from the server package. -/
def logColors (isModel noColor : Bool) : Modifier × Modifier :=
  if noColor then (none, none)
  else if isModel then (some (mkColor 40), some (mkColor 28))
  else (some (mkColor 39), some (mkColor 27))

end Logger

namespace Server

/-- Liveness and teardown effects of one WebSocket proxy session, as produced
by the handler returned by newWebSocketProxy (gorilla-websocket version). -/
structure SessionOutcome where
  processAlive : Bool
  guiConnClosed : Bool
  targetConnClosed : Bool
  relayRan : Bool
  logLines : List String
deriving DecidableEq

/-- Model of wsDial's error wrapping: a failed dial comes back as
"cannot dial addr: cause". -/
def wsDialErr (addr : String) (raw : Option GoError) : Option GoError :=
  raw.map (fun e => "cannot dial " ++ addr ++ ": " ++ e)

/-- Model of the per-connection handler returned by newWebSocketProxy:
upgrade the inbound connection, resolve the target address from the request
URL, dial the target, then relay frames with wsproxy.Copy. urlStr and query
model the request URL; upgradeErr and rawDialErr give the outcomes of the two
fallible I/O steps; relayErr is the error wsproxy.Copy returns when the relay
runs. The deferred Close calls run on every ordinary return of the handler,
but not when log.Fatalf (the ResolveResult.fatal branch) exits the process:
processAlive records whether the process survives the session. -/
def handleSession (urlStr : String) (query : Query) (dstTemplate : String)
    (upgradeErr : Option GoError) (rawDialErr : Option GoError)
    (relayErr : GoError) : SessionOutcome :=
  match upgradeErr with
  | some e =>
    { processAlive := true, guiConnClosed := false, targetConnClosed := false,
      relayRan := false,
      logLines := ["upgrading " ++ urlStr, "cannot upgrade " ++ urlStr ++ ": " ++ e] }
  | none =>
    match resolveWebSocketAddress query dstTemplate with
    | .fatal f =>
      { processAlive := false, guiConnClosed := false, targetConnClosed := false,
        relayRan := false,
        logLines := ["upgrading " ++ urlStr,
          "invalid WebSocket URL " ++ urlStr ++ ": " ++ f ++ " query not present"] }
    | .ok target =>
      match wsDialErr target rawDialErr with
      | some e =>
        { processAlive := true, guiConnClosed := true, targetConnClosed := false,
          relayRan := false,
          logLines := ["upgrading " ++ urlStr, "opening " ++ target,
            "cannot dial " ++ target ++ ": " ++ e] }
      | none =>
        { processAlive := true, guiConnClosed := true, targetConnClosed := true,
          relayRan := true,
          logLines := ["upgrading " ++ urlStr, "opening " ++ target,
            "closed " ++ target ++ ": " ++ relayErr] }

end Server

namespace HttpProxy

/-- An outbound HTTP request as rewritten by the reverse proxy director:
scheme, host (authority), path and raw query string. -/
structure OutReq where
  scheme : String
  host : String
  path : String
  query : String
deriving DecidableEq

/-- Model of http.StripPrefix's path handling: strings.TrimPrefix removes the
prefix, and the handler serves the shortened path; when the path does not
shrink (prefix empty or absent) it responds 404 Not Found, modelled by none. -/
def stripPathPre (pre s : String) : Option String :=
  if !pre.data.isEmpty && pre.data.isPrefixOf s.data then
    some ⟨s.data.drop pre.data.length⟩
  else none

/-- Model of Go strings.HasSuffix(a, "/"). -/
def endsWithSlash (a : String) : Bool :=
  a.data.getLast? == some '/'

/-- Model of Go strings.HasPrefix(b, "/"). -/
def startsWithSlash (b : String) : Bool :=
  b.data.head? == some '/'

/-- Model of net/http/httputil's singleJoiningSlash. -/
def singleJoiningSlash (a b : String) : String :=
  if endsWithSlash a && startsWithSlash b then ⟨a.data ++ b.data.drop 1⟩
  else if !endsWithSlash a && !startsWithSlash b then ⟨a.data ++ '/' :: b.data⟩
  else ⟨a.data ++ b.data⟩

/-- TLS configuration installed by NewTLSReverseProxy: certificate
verification is skipped (development trust model). -/
def insecureSkipVerify : Bool := true

/-- Model of the director installed by httputil.NewSingleHostReverseProxy for
the target URL https://host (whose path is empty): only scheme and authority
are rewritten; the request path is joined to the target's empty path and the
query string is kept. -/
def directorRewrite (host : String) (path query : String) : OutReq :=
  { scheme := "https", host := host,
    path := singleJoiningSlash "" path, query := query }

/-- Model of the /juju-core/ route installed by server.New:
http.StripPrefix("/juju-core/", httpproxy.NewTLSReverseProxy(host, log)). -/
def jujuCoreRoute (host : String) (path query : String) : Option OutReq :=
  (stripPathPre "/juju-core/" path).map (fun p => directorRewrite host p query)

end HttpProxy

namespace GuiConfig

/-- JSON values appearing in the guiconfig configuration maps. -/
inductive JVal where
  | str (s : String)
  | bool (b : Bool)
deriving DecidableEq

/-- Association-list configuration map. Keys are unique in every map the code
builds, since Go maps cannot hold duplicate keys. -/
abbrev Cfg := List (String × JVal)

/-- Map lookup on the association list. -/
def getVal : Cfg → String → Option JVal
  | [], _ => none
  | (k', v') :: rest, k => if k' = k then some v' else getVal rest k

/-- Model of Go map assignment m[k] = v on the association list: replace the
binding if the key is present, otherwise append it. -/
def setKey : Cfg → String → JVal → Cfg
  | [], k, v => [(k, v)]
  | (k', v') :: rest, k, v =>
    if k' = k then (k, v) :: rest else (k', v') :: setKey rest k v

/-- Model of strings.TrimRight(url, "/"). -/
def trimRightSlash (s : String) : String :=
  ⟨(s.data.reverse.dropWhile (fun c => c == '/')).reverse⟩

/-- Key constant from the guiconfig package. -/
def baseURLKey : String := "baseUrl"

/-- Default base URL constant from the guiconfig package. -/
def defaultBaseURL : String := "/gui/"

/-- Production base URL constant from the guiconfig package. -/
def productionBaseURL : String := "https://api.jujucharms.com"

/-- Model of envOverrides(url) from the guiconfig package. -/
def envOverrides (url : String) : Cfg :=
  let u := trimRightSlash url
  [("bundleServiceURL", .str (u ++ "/bundleservice/")),
   ("charmstoreURL", .str (u ++ "/charmstore/")),
   ("identityURL", .str (u ++ "/identity/")),
   ("paymentURL", .str (u ++ "/payment/")),
   ("plansURL", .str (u ++ "/plans/")),
   ("termsURL", .str (u ++ "/terms/")),
   (baseURLKey, .str "/"),
   ("gisf", .bool true)]

/-- The context passed to guiconfig.New. -/
structure Context where
  address : String
  jujuVersion : String
  controllerTemplate : String
  modelTemplate : String

/-- The predefined configuration map built at the top of guiconfig.New. -/
def predefinedCfg (ctx : Context) : Cfg :=
  [("jujuCoreVersion", .str ctx.jujuVersion),
   ("apiAddress", .str ctx.address),
   ("controllerSocketTemplate", .str ctx.controllerTemplate),
   ("socketTemplate", .str ctx.modelTemplate),
   (baseURLKey, .str defaultBaseURL),
   ("jujuEnvUUID", .str ""),
   ("gisf", .bool false),
   ("socket_protocol", .str "ws"),
   ("interactiveLogin", .bool true),
   ("html5", .bool true),
   ("container", .str "#main"),
   ("viewContainer", .str "#main"),
   ("consoleEnabled", .bool true),
   ("serverRouting", .bool false)]

/-- One iteration of guiconfig.New's first loop: cfg[k] = v only when the key
is not already present. -/
def envFill (cfg : Cfg) (kv : String × JVal) : Cfg :=
  if (getVal cfg kv.1).isNone then cfg ++ [kv] else cfg

/-- One iteration of guiconfig.New's second loop: cfg[k] = v unconditionally. -/
def setStep (cfg : Cfg) (kv : String × JVal) : Cfg :=
  setKey cfg kv.1 kv.2

/-- Model of guiconfig.New up to the JSON serialization at its end: start from
the predefined map, let the production environment defaults fill only keys not
already present, then let the user overrides overwrite unconditionally. Go map
iteration order is unspecified, and both loops are order-independent because
each layer's keys are unique and the env loop consults only key presence. -/
def guiconfigNew (ctx : Context) (overrides : Cfg) : Cfg :=
  let cfg0 := predefinedCfg ctx
  let cfg1 := (envOverrides productionBaseURL).foldl envFill cfg0
  overrides.foldl setStep cfg1

end GuiConfig

/-- Auxiliary for C1: if some field of the remaining field list is referenced
by the destination template but has an empty query value, the resolver loop
ends in the log.Fatalf branch, whatever replacement pairs were accumulated. -/
theorem resolveLoop_fatal_of_missing (q : Server.Query) (dst f : String)
    (href : GoStrings.strContains dst ("$" ++ f) = true)
    (hempty : Server.queryGet q f = "") :
    ∀ (fs : List String) (oldnew : List (String × String)), f ∈ fs →
      ∃ f', Server.resolveLoop q dst fs oldnew = .fatal f' := by
  intro fs
  induction fs with
  | nil => intro oldnew h; cases h
  | cons g rest ih =>
    intro oldnew hf
    by_cases hc : GoStrings.strContains dst ("$" ++ g) = true
    · by_cases he : Server.queryGet q g = ""
      · exact ⟨g, by simp [Server.resolveLoop, hc, he]⟩
      · rcases List.mem_cons.mp hf with heq | hmem
        · exact absurd hempty (heq ▸ he)
        · simpa [Server.resolveLoop, hc, he] using ih _ hmem
    · rcases List.mem_cons.mp hf with heq | hmem
      · exact absurd href (heq ▸ hc)
      · simpa [Server.resolveLoop, hc] using ih _ hmem

/-- C1, counterexample to the claim as stated: for the request URL /model/
with no query string, resolveWebSocketAddress does not return an error while
letting the server continue — it reaches the log.Fatalf branch (modelled by
ResolveResult.fatal), which terminates the whole server process. -/
theorem C1_resolution_counterexample :
    Server.resolveWebSocketAddress [] Server.modelDstTemplate
      = Server.ResolveResult.fatal "model" := by decide

/-- C1, amended: for every inbound WebSocket request whose URL is missing a
field referenced by the destination template (or whose required field is
empty), address resolution yields no target string, but instead of returning
a request-local error it calls log.Fatalf, terminating the server process, so
the failure is not confined to that single request. -/
theorem C1_missing_field_is_fatal (q : Server.Query) (dst f : String)
    (hf : f ∈ Server.resolveFields)
    (href : GoStrings.strContains dst ("$" ++ f) = true)
    (hempty : Server.queryGet q f = "") :
    ∃ f', Server.resolveWebSocketAddress q dst = .fatal f' :=
  resolveLoop_fatal_of_missing q dst f href hempty Server.resolveFields [] hf

/-- C1, witness: the amended theorem applied to the /model/ request with an
empty query string. -/
theorem C1_missing_field_is_fatal_witness :
    ("model" ∈ Server.resolveFields ∧
      GoStrings.strContains Server.modelDstTemplate ("$" ++ "model") = true ∧
      Server.queryGet [] "model" = "") ∧
    ∃ f', Server.resolveWebSocketAddress [] Server.modelDstTemplate = .fatal f' :=
  ⟨⟨by decide, by decide, by decide⟩,
    C1_missing_field_is_fatal [] Server.modelDstTemplate "model"
      (by decide) (by decide) (by decide)⟩

/-- C5: a dial failure terminates only its own session. The handler logs the
failure with the resolved target address and the underlying cause (the cause
is the error wsDial wrapped as "cannot dial target: raw"), returns, and the
deferred Close runs on the inbound connection; the process — and with it the
listener and every other session, each being an independent invocation of this
handler — stays alive, and the relay is never started. -/
theorem C5_dial_error_is_session_local (urlStr : String) (q : Server.Query)
    (dst target : String) (eDial relayErr : GoError)
    (hres : Server.resolveWebSocketAddress q dst = .ok target) :
    Server.handleSession urlStr q dst none (some eDial) relayErr
      = { processAlive := true, guiConnClosed := true, targetConnClosed := false,
          relayRan := false,
          logLines := ["upgrading " ++ urlStr, "opening " ++ target,
            "cannot dial " ++ target ++ ": "
              ++ ("cannot dial " ++ target ++ ": " ++ eDial)] } := by
  simp [Server.handleSession, hres, Server.wsDialErr]

/-- C5, witness: the theorem applied to a concrete model request whose dial
fails with "connection refused". -/
theorem C5_dial_error_is_session_local_witness :
    Server.resolveWebSocketAddress [("model", "127.0.0.1:9000"), ("uuid", "abc")]
        Server.modelDstTemplate = .ok "wss://127.0.0.1:9000/model/abc/api" ∧
    Server.handleSession "/model/?model=127.0.0.1:9000&uuid=abc"
        [("model", "127.0.0.1:9000"), ("uuid", "abc")] Server.modelDstTemplate
        none (some "connection refused") "unused"
      = { processAlive := true, guiConnClosed := true, targetConnClosed := false,
          relayRan := false,
          logLines := ["upgrading /model/?model=127.0.0.1:9000&uuid=abc",
            "opening wss://127.0.0.1:9000/model/abc/api",
            "cannot dial wss://127.0.0.1:9000/model/abc/api: "
              ++ ("cannot dial wss://127.0.0.1:9000/model/abc/api: connection refused")] } :=
  ⟨by decide,
    C5_dial_error_is_session_local "/model/?model=127.0.0.1:9000&uuid=abc"
      [("model", "127.0.0.1:9000"), ("uuid", "abc")] Server.modelDstTemplate
      "wss://127.0.0.1:9000/model/abc/api" "connection refused" "unused" (by decide)⟩

/-- Substring search fails whenever the pattern contains a character the
searched list lacks. -/
theorem hasSub_eq_false_of_missingChar (c : Char) (pat : List Char)
    (hc : c ∈ pat) :
    ∀ s : List Char, c ∉ s → GoStrings.hasSub s pat = false := by
  intro s
  induction s with
  | nil =>
    intro _
    cases pat with
    | nil => cases hc
    | cons a l => rfl
  | cons a rest ih =>
    intro hs
    have h1 : pat.isPrefixOf (a :: rest) = false := by
      cases hp : pat.isPrefixOf (a :: rest)
      · rfl
      · exact absurd (( List.isPrefixOf_iff_prefix.mp hp).subset hc) hs
    have h2 : c ∉ rest := fun h => hs (List.mem_cons_of_mem a h)
    simp [GoStrings.hasSub, h1, ih h2]

/-- A string with no '$' cannot contain any "$name" placeholder token. -/
theorem strContains_eq_false_of_no_dollar (s pat : String)
    (hc : '$' ∈ pat.data) (hs : '$' ∉ s.data) :
    GoStrings.strContains s pat = false :=
  hasSub_eq_false_of_missingChar '$' pat.data hc s.data hs

/-- C3, counterexample to the claim as stated: the request
/model/?model=$uuid&uuid=abc has both referenced placeholders present and
non-empty, yet the resolved target keeps a literal "$uuid" token, because
strings.Replacer performs a single pass and never rescans replacement text. -/
theorem C3_resolution_counterexample :
    Server.resolveWebSocketAddress [("model", "$uuid"), ("uuid", "abc")]
        Server.modelDstTemplate = .ok "wss://$uuid/model/abc/api" ∧
    GoStrings.strContains "wss://$uuid/model/abc/api" "$uuid" = true := by
  exact ⟨by decide, by decide⟩

/-- C3, amended: for every request whose query supplies non-empty values for
the placeholders referenced by the model destination template, provided the
extracted values contain no '$' character, resolution returns the destination
template with every placeholder replaced by the extracted value and no literal
$name token remaining; in particular /model/?model=127.0.0.1:9000&uuid=abc
resolves to wss://127.0.0.1:9000/model/abc/api. -/
theorem C3_resolution_substitutes_placeholders (q : Server.Query)
    (vm vu : String)
    (hm : Server.queryGet q "model" = vm) (hvm : ¬ vm = "")
    (hu : Server.queryGet q "uuid" = vu) (hvu : ¬ vu = "")
    (hdm : '$' ∉ vm.data) (hdu : '$' ∉ vu.data) :
    Server.resolveWebSocketAddress q Server.modelDstTemplate
      = .ok ⟨"wss://".data ++ (vm.data ++ ("/model/".data ++ (vu.data ++ "/api".data)))⟩ ∧
    GoStrings.strContains
        ⟨"wss://".data ++ (vm.data ++ ("/model/".data ++ (vu.data ++ "/api".data)))⟩
        "$controller" = false ∧
    GoStrings.strContains
        ⟨"wss://".data ++ (vm.data ++ ("/model/".data ++ (vu.data ++ "/api".data)))⟩
        "$model" = false ∧
    GoStrings.strContains
        ⟨"wss://".data ++ (vm.data ++ ("/model/".data ++ (vu.data ++ "/api".data)))⟩
        "$uuid" = false ∧
    Server.resolveWebSocketAddress [("model", "127.0.0.1:9000"), ("uuid", "abc")]
        Server.modelDstTemplate = .ok "wss://127.0.0.1:9000/model/abc/api" := by
  have c1 : GoStrings.strContains Server.modelDstTemplate "$controller" = false := by
    decide
  have c2 : GoStrings.strContains Server.modelDstTemplate "$model" = true := by decide
  have c3 : GoStrings.strContains Server.modelDstTemplate "$uuid" = true := by decide
  have hnd : '$' ∉ ("wss://".data ++ (vm.data ++ ("/model/".data ++ (vu.data ++ "/api".data)))) := by
    simp only [List.mem_append, not_or]
    exact ⟨by decide, hdm, by decide, hdu, by decide⟩
  refine ⟨?_, ?_, ?_, ?_, by decide⟩
  · have e1 : Server.resolveWebSocketAddress q Server.modelDstTemplate
        = .ok (GoStrings.replaceStr [("$model", vm), ("$uuid", vu)]
            Server.modelDstTemplate) := by
      unfold Server.resolveWebSocketAddress Server.resolveFields
      simp [Server.resolveLoop, c1, c2, c3, hm, hu, hvm, hvu]
    rw [e1]
    rfl
  · exact strContains_eq_false_of_no_dollar _ "$controller" (by decide) hnd
  · exact strContains_eq_false_of_no_dollar _ "$model" (by decide) hnd
  · exact strContains_eq_false_of_no_dollar _ "$uuid" (by decide) hnd

/-- C3, witness: the amended theorem applied to the concrete request of the
claim's scenario. -/
theorem C3_resolution_substitutes_placeholders_witness :
    (Server.queryGet [("model", "127.0.0.1:9000"), ("uuid", "abc")] "model"
        = "127.0.0.1:9000" ∧
      Server.queryGet [("model", "127.0.0.1:9000"), ("uuid", "abc")] "uuid" = "abc" ∧
      '$' ∉ "127.0.0.1:9000".data ∧ '$' ∉ "abc".data) ∧
    Server.resolveWebSocketAddress [("model", "127.0.0.1:9000"), ("uuid", "abc")]
        Server.modelDstTemplate
      = .ok ⟨"wss://".data ++ ("127.0.0.1:9000".data ++ ("/model/".data
          ++ ("abc".data ++ "/api".data)))⟩ :=
  ⟨⟨by decide, by decide, by decide, by decide⟩,
    (C3_resolution_substitutes_placeholders
      [("model", "127.0.0.1:9000"), ("uuid", "abc")] "127.0.0.1:9000" "abc"
      (by decide) (by decide) (by decide) (by decide) (by decide) (by decide)).1⟩

/-- C6: the claim is the behaviour the repository's own TestNilModifiers
checks, and the code violates it. logColors with noColor yields nil modifier
functions, the server passes them straight to logger.New, and apiLogger.Print
invokes every stored modifier unconditionally — so Print on the logger built
by logger.New(nil, nil) panics (none) instead of logging "exterminate"
unchanged as the test expects. -/
theorem C6_print_nil_modifier_panics :
    Logger.logColors true true = (none, none) ∧
    Logger.applyModifiers [none, none] "exterminate" = none := by
  exact ⟨rfl, rfl⟩

/-- Shape of a cp run: per successfully copied message a read, the write and
the observer call, followed only by the events of the first failure. -/
theorem cpEvents_canonical (t : List Wsproxy.Step) :
    Wsproxy.cpEvents t
      = Wsproxy.copiedEvents (Wsproxy.okPrefix t) ++ Wsproxy.failEvents t := by
  induction t with
  | nil => rfl
  | cons s rest ih =>
    cases s with
    | okStep m =>
      simp [Wsproxy.cpEvents, Wsproxy.okPrefix, Wsproxy.failEvents,
        Wsproxy.copiedEvents, ih]
    | readFail e => rfl
    | writeFail m e => rfl

/-- The write collector distributes over event-list concatenation. -/
theorem writesOf_append (l1 l2 : List Wsproxy.Event) :
    Wsproxy.writesOf (l1 ++ l2) = Wsproxy.writesOf l1 ++ Wsproxy.writesOf l2 := by
  induction l1 with
  | nil => rfl
  | cons e rest ih => cases e <;> simp [Wsproxy.writesOf, ih]

/-- The observer collector distributes over event-list concatenation. -/
theorem logsOf_append (l1 l2 : List Wsproxy.Event) :
    Wsproxy.logsOf (l1 ++ l2) = Wsproxy.logsOf l1 ++ Wsproxy.logsOf l2 := by
  induction l1 with
  | nil => rfl
  | cons e rest ih => cases e <;> simp [Wsproxy.logsOf, ih]

/-- The channel-send collector distributes over event-list concatenation. -/
theorem sendsOf_append (l1 l2 : List Wsproxy.Event) :
    Wsproxy.sendsOf (l1 ++ l2) = Wsproxy.sendsOf l1 ++ Wsproxy.sendsOf l2 := by
  induction l1 with
  | nil => rfl
  | cons e rest ih => cases e <;> simp [Wsproxy.sendsOf, ih]

/-- A run of successful copies writes exactly its messages. -/
theorem writesOf_copiedEvents (ms : List String) :
    Wsproxy.writesOf (Wsproxy.copiedEvents ms) = ms := by
  induction ms with
  | nil => rfl
  | cons m rest ih => simp [Wsproxy.copiedEvents, Wsproxy.writesOf, ih]

/-- A run of successful copies logs exactly its messages. -/
theorem logsOf_copiedEvents (ms : List String) :
    Wsproxy.logsOf (Wsproxy.copiedEvents ms) = ms := by
  induction ms with
  | nil => rfl
  | cons m rest ih => simp [Wsproxy.copiedEvents, Wsproxy.logsOf, ih]

/-- A run of successful copies sends nothing on the error channel. -/
theorem sendsOf_copiedEvents (ms : List String) :
    Wsproxy.sendsOf (Wsproxy.copiedEvents ms) = [] := by
  induction ms with
  | nil => rfl
  | cons m rest ih => simp [Wsproxy.copiedEvents, Wsproxy.sendsOf, ih]

/-- The terminal failure events contain no successful write. -/
theorem writesOf_failEvents (t : List Wsproxy.Step) :
    Wsproxy.writesOf (Wsproxy.failEvents t) = [] := by
  induction t with
  | nil => rfl
  | cons s rest ih => cases s <;> simp [Wsproxy.failEvents, Wsproxy.writesOf, ih]

/-- The terminal failure events contain no observer call. -/
theorem logsOf_failEvents (t : List Wsproxy.Step) :
    Wsproxy.logsOf (Wsproxy.failEvents t) = [] := by
  induction t with
  | nil => rfl
  | cons s rest ih => cases s <;> simp [Wsproxy.failEvents, Wsproxy.logsOf, ih]

/-- The terminal failure events send exactly the loop's first error. -/
theorem sendsOf_failEvents (t : List Wsproxy.Step) :
    Wsproxy.sendsOf (Wsproxy.failEvents t) = (Wsproxy.firstErr t).toList := by
  induction t with
  | nil => rfl
  | cons s rest ih =>
    cases s <;> simp [Wsproxy.failEvents, Wsproxy.sendsOf, Wsproxy.firstErr, ih]

/-- A cp loop sends exactly its first error on the channel, nothing more. -/
theorem sendsOf_cpEvents (t : List Wsproxy.Step) :
    Wsproxy.sendsOf (Wsproxy.cpEvents t) = (Wsproxy.firstErr t).toList := by
  rw [cpEvents_canonical t, sendsOf_append, sendsOf_copiedEvents, List.nil_append,
    sendsOf_failEvents]

/-- Sends that fit within the channel capacity all succeed without blocking. -/
theorem execSends_of_le (cap : Nat) :
    ∀ (l q : List GoError), q.length + l.length ≤ cap →
      Wsproxy.execSends cap l q = some (q ++ l) := by
  intro l
  induction l with
  | nil => intro q h; simp [Wsproxy.execSends]
  | cons e rest ih =>
    intro q h
    have hq : q.length < cap := by
      simp only [List.length_cons] at h
      omega
    have h' : (q ++ [e]).length + rest.length ≤ cap := by
      simp only [List.length_append, List.length_cons, List.length_nil] at h ⊢
      omega
    rw [Wsproxy.execSends, if_pos hq, ih (q ++ [e]) h']
    simp

/-- Interleaving preserves the total number of pending sends. -/
theorem mergeSendsAux_length :
    ∀ (fuel : Nat) (sched : List Bool) (xs ys : List GoError),
      (Wsproxy.mergeSendsAux fuel sched xs ys).length = xs.length + ys.length := by
  intro fuel
  induction fuel with
  | zero => intro sched xs ys; simp [Wsproxy.mergeSendsAux]
  | succ n ih =>
    intro sched xs ys
    cases xs with
    | nil => simp [Wsproxy.mergeSendsAux]
    | cons x xs' =>
      cases ys with
      | nil => simp [Wsproxy.mergeSendsAux]
      | cons y ys' =>
        cases sched with
        | nil =>
          simp only [Wsproxy.mergeSendsAux, List.length_cons, ih]
          omega
        | cons b s =>
          cases b <;> simp only [Wsproxy.mergeSendsAux, List.length_cons, ih] <;> omega

/-- Interleaving preserves the total number of pending sends. -/
theorem mergeSends_length (sched : List Bool) (xs ys : List GoError) :
    (Wsproxy.mergeSends sched xs ys).length = xs.length + ys.length :=
  mergeSendsAux_length (xs.length + ys.length) sched xs ys

/-- A loop's first error, as a list, has at most one element. -/
theorem firstErr_toList_length (t : List Wsproxy.Step) :
    (Wsproxy.firstErr t).toList.length ≤ 1 := by
  cases Wsproxy.firstErr t <;> simp

/-- C4: within one relay direction, every message read from the source is
written exactly once to the destination before the next message is read: over
any connection trace the loop's events are, per successfully copied message, a
read then the write then the observer call, followed only by the first
failure's events; consequently the destination receives exactly the
successfully copied prefix of the source's messages, whole and in the same
order. Messages are discrete framed units here because copyJSON reads and
writes one JSON value per WebSocket frame, so boundaries cannot be merged or
split. -/
theorem C4_direction_preserves_messages (t : List Wsproxy.Step) :
    Wsproxy.cpEvents t
      = Wsproxy.copiedEvents (Wsproxy.okPrefix t) ++ Wsproxy.failEvents t ∧
    Wsproxy.writesOf (Wsproxy.cpEvents t) = Wsproxy.okPrefix t := by
  refine ⟨cpEvents_canonical t, ?_⟩
  rw [cpEvents_canonical t, writesOf_append, writesOf_copiedEvents,
    writesOf_failEvents, List.append_nil]

/-- The cp loop only ever logs a message immediately after its successful
write, whatever event preceded the loop's events. -/
theorem logAfterWriteAux_cpEvents (t : List Wsproxy.Step) :
    ∀ prev, Wsproxy.logAfterWriteAux prev (Wsproxy.cpEvents t) = true := by
  induction t with
  | nil => intro prev; rfl
  | cons s rest ih =>
    intro prev
    cases s with
    | okStep m => simp [Wsproxy.cpEvents, Wsproxy.logAfterWriteAux, ih]
    | readFail e => rfl
    | writeFail m e => rfl

/-- C8: in each relay direction the observer is invoked exactly once per
successfully copied message — the logged list equals the successfully copied
prefix and the written list — with the message's raw encoded form, and each
observer call happens immediately after the successful write of that same
message; a message whose read or write failed is never passed to the
observer. -/
theorem C8_observer_once_after_write (t : List Wsproxy.Step) :
    Wsproxy.logsOf (Wsproxy.cpEvents t) = Wsproxy.okPrefix t ∧
    Wsproxy.logsOf (Wsproxy.cpEvents t) = Wsproxy.writesOf (Wsproxy.cpEvents t) ∧
    Wsproxy.logAfterWrite (Wsproxy.cpEvents t) = true := by
  have hl : Wsproxy.logsOf (Wsproxy.cpEvents t) = Wsproxy.okPrefix t := by
    rw [cpEvents_canonical t, logsOf_append, logsOf_copiedEvents,
      logsOf_failEvents, List.append_nil]
  have hw : Wsproxy.writesOf (Wsproxy.cpEvents t) = Wsproxy.okPrefix t := by
    rw [cpEvents_canonical t, writesOf_append, writesOf_copiedEvents,
      writesOf_failEvents, List.append_nil]
  exact ⟨hl, by rw [hl, hw], logAfterWriteAux_cpEvents t none⟩

/-- C2: wsproxy.Copy returns exactly the first error produced by either of
the two direction copy loops: each loop sends its own first error — a normal
end of stream (io.EOF) included — on the shared channel, the schedule fixes
the real-time order in which those sends arrive, and Copy returns the first
arrival. In particular a loop whose source reaches end of stream after one
copied message makes Copy return io.EOF, not ignore it. -/
theorem C2_copy_returns_first_error (t1 t2 : List Wsproxy.Step)
    (sched : List Bool) :
    Wsproxy.copyResult t1 t2 sched
      = (Wsproxy.mergeSends sched (Wsproxy.firstErr t1).toList
          (Wsproxy.firstErr t2).toList).head? ∧
    Wsproxy.copyResult [Wsproxy.Step.okStep "ping", Wsproxy.Step.readFail ioEOF]
        [] [] = some ioEOF := by
  refine ⟨?_, by decide⟩
  unfold Wsproxy.copyResult
  rw [sendsOf_cpEvents, sendsOf_cpEvents]
  have hlen : (Wsproxy.mergeSends sched (Wsproxy.firstErr t1).toList
      (Wsproxy.firstErr t2).toList).length ≤ Wsproxy.errChCap := by
    rw [mergeSends_length]
    have h1 := firstErr_toList_length t1
    have h2 := firstErr_toList_length t2
    simp only [Wsproxy.errChCap]
    omega
  rw [execSends_of_le Wsproxy.errChCap _ [] (by simpa using hlen)]
  simp

/-- Once a trace has a failing step, the failure events end with the channel
send of the loop's first error. -/
theorem failEvents_getLast (t : List Wsproxy.Step)
    (h : Wsproxy.hasFail t = true) :
    ∃ e, Wsproxy.firstErr t = some e ∧ Wsproxy.failEvents t ≠ [] ∧
      (Wsproxy.failEvents t).getLast? = some (.send e) := by
  induction t with
  | nil => simp [Wsproxy.hasFail, Wsproxy.firstErr] at h
  | cons s rest ih =>
    cases s with
    | okStep m =>
      have h' : Wsproxy.hasFail rest = true := by
        simpa [Wsproxy.hasFail, Wsproxy.firstErr] using h
      simpa [Wsproxy.firstErr, Wsproxy.failEvents] using ih h'
    | readFail e => exact ⟨e, rfl, by simp [Wsproxy.failEvents], rfl⟩
    | writeFail m e => exact ⟨e, rfl, by simp [Wsproxy.failEvents], rfl⟩

/-- C10: each direction's copy loop sends at most one value on the error
channel before returning; the channel is created with capacity two, the
number of loops, so however the two loops' sends interleave they all fit in
the buffer and never block; and once a loop's own read or write fails the
loop terminates, its final event being the send of that first error. -/
theorem C10_error_channel_never_blocks (t t1 t2 : List Wsproxy.Step)
    (sched : List Bool) (hfail : Wsproxy.hasFail t = true) :
    (Wsproxy.sendsOf (Wsproxy.cpEvents t)).length ≤ 1 ∧
    Wsproxy.errChCap = 2 ∧
    (Wsproxy.execSends Wsproxy.errChCap
        (Wsproxy.mergeSends sched (Wsproxy.sendsOf (Wsproxy.cpEvents t1))
          (Wsproxy.sendsOf (Wsproxy.cpEvents t2))) []).isSome = true ∧
    ∃ e, Wsproxy.firstErr t = some e ∧
      (Wsproxy.cpEvents t).getLast? = some (.send e) := by
  refine ⟨?_, rfl, ?_, ?_⟩
  · rw [sendsOf_cpEvents]
    exact firstErr_toList_length t
  · rw [sendsOf_cpEvents, sendsOf_cpEvents]
    have hlen : (Wsproxy.mergeSends sched (Wsproxy.firstErr t1).toList
        (Wsproxy.firstErr t2).toList).length ≤ Wsproxy.errChCap := by
      rw [mergeSends_length]
      have h1 := firstErr_toList_length t1
      have h2 := firstErr_toList_length t2
      simp only [Wsproxy.errChCap]
      omega
    rw [execSends_of_le Wsproxy.errChCap _ [] (by simpa using hlen)]
    rfl
  · obtain ⟨e, he, hne, hlast⟩ := failEvents_getLast t hfail
    refine ⟨e, he, ?_⟩
    rw [cpEvents_canonical t, List.getLast?_append_of_ne_nil _ hne, hlast]

/-- C10, witness: the theorem applied to concrete traces — one loop copies a
message and then hits end of stream, the other fails writing — under the
schedule that lets the second loop's send arrive first. -/
theorem C10_error_channel_never_blocks_witness :
    Wsproxy.hasFail [Wsproxy.Step.okStep "a", Wsproxy.Step.readFail ioEOF] = true ∧
    ((Wsproxy.sendsOf (Wsproxy.cpEvents
        [Wsproxy.Step.okStep "a", Wsproxy.Step.readFail ioEOF])).length ≤ 1 ∧
    Wsproxy.errChCap = 2 ∧
    (Wsproxy.execSends Wsproxy.errChCap
        (Wsproxy.mergeSends [false]
          (Wsproxy.sendsOf (Wsproxy.cpEvents
            [Wsproxy.Step.okStep "a", Wsproxy.Step.readFail ioEOF]))
          (Wsproxy.sendsOf (Wsproxy.cpEvents
            [Wsproxy.Step.writeFail "b" "broken pipe"]))) []).isSome = true ∧
    ∃ e, Wsproxy.firstErr [Wsproxy.Step.okStep "a", Wsproxy.Step.readFail ioEOF]
        = some e ∧
      (Wsproxy.cpEvents [Wsproxy.Step.okStep "a", Wsproxy.Step.readFail ioEOF]).getLast?
        = some (.send e)) :=
  ⟨by decide,
    C10_error_channel_never_blocks
      [Wsproxy.Step.okStep "a", Wsproxy.Step.readFail ioEOF]
      [Wsproxy.Step.okStep "a", Wsproxy.Step.readFail ioEOF]
      [Wsproxy.Step.writeFail "b" "broken pipe"] [false] (by decide)⟩

/-- Stripping the /juju-core/ route prefix from a path that carries it yields
exactly the remainder. -/
theorem stripPathPre_append (rest : String) :
    HttpProxy.stripPathPre "/juju-core/" ("/juju-core/" ++ rest)
      = some ⟨rest.data⟩ := by
  have hdata : ("/juju-core/" ++ rest).data = "/juju-core/".data ++ rest.data :=
    String.data_append _ _
  have hpre : "/juju-core/".data.isPrefixOf ("/juju-core/".data ++ rest.data) = true :=
    List.isPrefixOf_iff_prefix.mpr (List.prefix_append _ _)
  unfold HttpProxy.stripPathPre
  rw [hdata, if_pos (by simp [hpre])]
  rw [List.drop_left]

/-- Joining a path without a leading slash onto the empty target path roots it
with a single slash. -/
theorem singleJoiningSlash_empty (rest : String)
    (h : HttpProxy.startsWithSlash rest = false) :
    HttpProxy.singleJoiningSlash "" ⟨rest.data⟩ = "/" ++ rest := by
  have hs : HttpProxy.startsWithSlash ⟨rest.data⟩ = false := h
  unfold HttpProxy.singleJoiningSlash
  rw [hs]
  simp only [HttpProxy.endsWithSlash]
  rfl

/-- C7: every request whose path falls under the /juju-core/ prefix is
forwarded to the fixed remote host over HTTPS with the prefix stripped and
only the authority component rewritten — the outbound scheme is https, the
host is the configured remote, the path is the inbound path minus the route
prefix (re-rooted with a single slash) and the query is preserved; in
particular GET /juju-core/api/status against the remote example.test:443
produces the outbound request https://example.test:443/api/status, the same
request as https://example.test/api/status since 443 is the default HTTPS
port. -/
theorem C7_juju_core_pass_through (host rest q : String)
    (h : HttpProxy.startsWithSlash rest = false) :
    HttpProxy.jujuCoreRoute host ("/juju-core/" ++ rest) q
      = some { scheme := "https", host := host, path := "/" ++ rest, query := q } ∧
    HttpProxy.jujuCoreRoute "example.test:443" "/juju-core/api/status" ""
      = some { scheme := "https", host := "example.test:443",
               path := "/api/status", query := "" } := by
  refine ⟨?_, by decide⟩
  unfold HttpProxy.jujuCoreRoute
  rw [stripPathPre_append rest]
  simp only [Option.map_some']
  unfold HttpProxy.directorRewrite
  rw [singleJoiningSlash_empty rest h]

/-- C7, witness: the theorem applied to the claim's concrete scenario. -/
theorem C7_juju_core_pass_through_witness :
    HttpProxy.startsWithSlash "api/status" = false ∧
    HttpProxy.jujuCoreRoute "example.test:443" ("/juju-core/" ++ "api/status") ""
      = some { scheme := "https", host := "example.test:443",
               path := "/" ++ "api/status", query := "" } :=
  ⟨by decide,
    (C7_juju_core_pass_through "example.test:443" "api/status" "" (by decide)).1⟩

/-- Looking up the key just assigned yields the assigned value. -/
theorem getVal_setKey_self (m : GuiConfig.Cfg) (k : String) (v : GuiConfig.JVal) :
    GuiConfig.getVal (GuiConfig.setKey m k v) k = some v := by
  induction m with
  | nil => simp [GuiConfig.setKey, GuiConfig.getVal]
  | cons p rest ih =>
    obtain ⟨k1, v1⟩ := p
    by_cases hk : k1 = k
    · subst hk
      simp [GuiConfig.setKey, GuiConfig.getVal]
    · simp [GuiConfig.setKey, GuiConfig.getVal, hk, ih]

/-- Assigning one key leaves lookups of any other key unchanged. -/
theorem getVal_setKey_other (m : GuiConfig.Cfg) (k : String) (v : GuiConfig.JVal)
    (k' : String) (h : k' ≠ k) :
    GuiConfig.getVal (GuiConfig.setKey m k v) k' = GuiConfig.getVal m k' := by
  induction m with
  | nil => simp [GuiConfig.setKey, GuiConfig.getVal, Ne.symm h]
  | cons p rest ih =>
    obtain ⟨k1, v1⟩ := p
    by_cases hk : k1 = k
    · subst hk
      simp [GuiConfig.setKey, GuiConfig.getVal, Ne.symm h]
    · by_cases hk' : k1 = k'
      · subst hk'
        simp [GuiConfig.setKey, GuiConfig.getVal, hk]
      · simp [GuiConfig.setKey, GuiConfig.getVal, hk, hk', ih]

/-- A lookup misses exactly when no pair of the list carries the key. -/
theorem getVal_eq_none_iff (m : GuiConfig.Cfg) (k : String) :
    GuiConfig.getVal m k = none ↔ ∀ p ∈ m, p.1 ≠ k := by
  induction m with
  | nil => simp [GuiConfig.getVal]
  | cons p rest ih =>
    obtain ⟨k1, v1⟩ := p
    by_cases hk : k1 = k
    · subst hk
      simp [GuiConfig.getVal]
    · simp [GuiConfig.getVal, hk, ih]

/-- Lookup distributes over list concatenation, preferring the left part. -/
theorem getVal_append (m l : GuiConfig.Cfg) (k : String) :
    GuiConfig.getVal (m ++ l) k = (GuiConfig.getVal m k).or (GuiConfig.getVal l k) := by
  induction m with
  | nil => simp [GuiConfig.getVal]
  | cons p rest ih =>
    obtain ⟨k1, v1⟩ := p
    by_cases hk : k1 = k
    · subst hk
      simp [GuiConfig.getVal]
    · simp [GuiConfig.getVal, hk, ih]

/-- Folding Go map assignments whose keys all differ from k leaves the lookup
at k unchanged. -/
theorem foldl_setStep_of_not_mem (k : String) :
    ∀ (l cfg : GuiConfig.Cfg), (∀ p ∈ l, p.1 ≠ k) →
      GuiConfig.getVal (l.foldl GuiConfig.setStep cfg) k = GuiConfig.getVal cfg k := by
  intro l
  induction l with
  | nil => intro cfg _; rfl
  | cons p rest ih =>
    intro cfg hp
    rw [List.foldl_cons]
    rw [ih _ (fun p' h' => hp p' (List.mem_cons_of_mem _ h'))]
    exact getVal_setKey_other cfg p.1 p.2 k (Ne.symm (hp p (List.mem_cons_self _ _)))

/-- With duplicate-free keys, a key present in the assignment list ends up
bound to its listed value after the fold, whatever the starting map. -/
theorem foldl_setStep_of_mem (k : String) (v : GuiConfig.JVal) :
    ∀ (l cfg : GuiConfig.Cfg), (l.map Prod.fst).Nodup →
      GuiConfig.getVal l k = some v →
      GuiConfig.getVal (l.foldl GuiConfig.setStep cfg) k = some v := by
  intro l
  induction l with
  | nil =>
    intro cfg _ hv
    simp [GuiConfig.getVal] at hv
  | cons p rest ih =>
    intro cfg hnd hv
    obtain ⟨k1, v1⟩ := p
    have hnd' : (∀ (x : GuiConfig.JVal), (k1, x) ∉ rest) ∧
        (rest.map Prod.fst).Nodup := by simpa using hnd
    rw [List.foldl_cons]
    by_cases hk : k1 = k
    · subst hk
      have hv1 : v1 = v := by
        simpa [GuiConfig.getVal] using hv
      have hrest : ∀ p ∈ rest, p.1 ≠ k1 := by
        intro pr hpr hpk
        apply hnd'.1 pr.2
        have hpr' : (pr.1, pr.2) ∈ rest := by simpa using hpr
        rwa [hpk] at hpr'
      rw [foldl_setStep_of_not_mem k1 rest _ hrest]
      rw [show GuiConfig.setStep cfg (k1, v1) = GuiConfig.setKey cfg k1 v1 from rfl]
      rw [getVal_setKey_self, hv1]
    · have hv' : GuiConfig.getVal rest k = some v := by
        simpa [GuiConfig.getVal, hk] using hv
      exact ih _ hnd'.2 hv'

/-- The fill-only environment loop never changes a key that is already
present in the configuration. -/
theorem foldl_envFill_of_present (k : String) (v : GuiConfig.JVal) :
    ∀ (l cfg : GuiConfig.Cfg), GuiConfig.getVal cfg k = some v →
      GuiConfig.getVal (l.foldl GuiConfig.envFill cfg) k = some v := by
  intro l
  induction l with
  | nil => intro cfg h; exact h
  | cons p rest ih =>
    intro cfg h
    rw [List.foldl_cons]
    by_cases hc : (GuiConfig.getVal cfg p.1).isNone = true
    · rw [show GuiConfig.envFill cfg p = cfg ++ [p] by simp [GuiConfig.envFill, hc]]
      exact ih _ (by rw [getVal_append, h]; rfl)
    · rw [show GuiConfig.envFill cfg p = cfg by simp [GuiConfig.envFill, hc]]
      exact ih _ h

/-- The fill-only environment loop leaves a key absent from its own list
looking exactly as before. -/
theorem foldl_envFill_of_not_mem (k : String) :
    ∀ (l cfg : GuiConfig.Cfg), (∀ p ∈ l, p.1 ≠ k) →
      GuiConfig.getVal (l.foldl GuiConfig.envFill cfg) k = GuiConfig.getVal cfg k := by
  intro l
  induction l with
  | nil => intro cfg _; rfl
  | cons p rest ih =>
    intro cfg hp
    rw [List.foldl_cons]
    have hrest := fun p' h' => hp p' (List.mem_cons_of_mem _ h')
    by_cases hc : (GuiConfig.getVal cfg p.1).isNone = true
    · rw [show GuiConfig.envFill cfg p = cfg ++ [p] by simp [GuiConfig.envFill, hc]]
      rw [ih _ hrest, getVal_append]
      have hsingle : GuiConfig.getVal [p] k = none := by
        obtain ⟨k1, v1⟩ := p
        simp [GuiConfig.getVal, hp (k1, v1) (List.mem_cons_self _ _)]
      rw [hsingle, Option.or_none]
    · rw [show GuiConfig.envFill cfg p = cfg by simp [GuiConfig.envFill, hc]]
      exact ih _ hrest

/-- C9: configuration merging is an ordered layered overwrite. For every key
present in the user-supplied overrides (whose keys, coming from a Go map, are
duplicate-free) the generated configuration holds the override value in place
of the environment default or predefined value; and every key not present in
either override layer (the environment defaults and the user overrides) keeps
its predefined value. -/
theorem C9_config_layered_merge (ctx : GuiConfig.Context)
    (overrides : GuiConfig.Cfg) (k : String) (v : GuiConfig.JVal)
    (hnd : (overrides.map Prod.fst).Nodup) :
    (GuiConfig.getVal overrides k = some v →
      GuiConfig.getVal (GuiConfig.guiconfigNew ctx overrides) k = some v) ∧
    (GuiConfig.getVal overrides k = none →
      GuiConfig.getVal (GuiConfig.envOverrides GuiConfig.productionBaseURL) k = none →
      GuiConfig.getVal (GuiConfig.guiconfigNew ctx overrides) k
        = GuiConfig.getVal (GuiConfig.predefinedCfg ctx) k) := by
  constructor
  · intro hv
    exact foldl_setStep_of_mem k v overrides _ hnd hv
  · intro hov henv
    unfold GuiConfig.guiconfigNew
    rw [foldl_setStep_of_not_mem k overrides _ ((getVal_eq_none_iff _ _).mp hov)]
    exact foldl_envFill_of_not_mem k _ _ ((getVal_eq_none_iff _ _).mp henv)

/-- C9, witness: the theorem applied to a concrete context and the override
map containing only "gisf": the override wins for "gisf", and "html5",
present in no override layer, keeps its predefined value. -/
theorem C9_config_layered_merge_witness :
    ((([("gisf", GuiConfig.JVal.bool false)].map Prod.fst).Nodup ∧
      GuiConfig.getVal [("gisf", GuiConfig.JVal.bool false)] "gisf"
        = some (GuiConfig.JVal.bool false)) ∧
     (GuiConfig.getVal [("gisf", GuiConfig.JVal.bool false)] "html5" = none ∧
      GuiConfig.getVal (GuiConfig.envOverrides GuiConfig.productionBaseURL) "html5"
        = none)) ∧
    GuiConfig.getVal
        (GuiConfig.guiconfigNew
          { address := "1.2.3.4:17070", jujuVersion := "2.2.0",
            controllerTemplate := Server.controllerSrcTemplate,
            modelTemplate := Server.modelSrcTemplate }
          [("gisf", GuiConfig.JVal.bool false)]) "gisf"
      = some (GuiConfig.JVal.bool false) ∧
    GuiConfig.getVal
        (GuiConfig.guiconfigNew
          { address := "1.2.3.4:17070", jujuVersion := "2.2.0",
            controllerTemplate := Server.controllerSrcTemplate,
            modelTemplate := Server.modelSrcTemplate }
          [("gisf", GuiConfig.JVal.bool false)]) "html5"
      = GuiConfig.getVal
          (GuiConfig.predefinedCfg
            { address := "1.2.3.4:17070", jujuVersion := "2.2.0",
              controllerTemplate := Server.controllerSrcTemplate,
              modelTemplate := Server.modelSrcTemplate }) "html5" :=
  ⟨⟨⟨by decide, by decide⟩, ⟨by decide, by decide⟩⟩,
    (C9_config_layered_merge
        { address := "1.2.3.4:17070", jujuVersion := "2.2.0",
          controllerTemplate := Server.controllerSrcTemplate,
          modelTemplate := Server.modelSrcTemplate }
        [("gisf", GuiConfig.JVal.bool false)] "gisf" (GuiConfig.JVal.bool false)
        (by decide)).1 (by decide),
    (C9_config_layered_merge
        { address := "1.2.3.4:17070", jujuVersion := "2.2.0",
          controllerTemplate := Server.controllerSrcTemplate,
          modelTemplate := Server.modelSrcTemplate }
        [("gisf", GuiConfig.JVal.bool false)] "html5" (GuiConfig.JVal.bool false)
        (by decide)).2 (by decide) (by decide)⟩
